import Mathlib

/-!
Verification development for the face-detection attendance web application
(Flask routes in `routes/attendance_routes.py`).

Conventions of the shallow embedding:
* Calendar dates and timestamps are modelled as `Nat` (Python `date.isoformat`
  is injective on dates, so counting distinct ISO strings equals counting
  distinct modelled dates).
* Face encodings are fixed-length numeric vectors, modelled as `List ℚ`.
  Distances are compared through the squared Euclidean distance against the
  squared tolerance (0.5² = 1/4), which is order-preserving and keeps every
  comparison exact and decidable.
* The external effects the route handlers depend on (whether the multipart
  file is present, whether OpenCV decodes the bytes, what faces the library
  detects, whether a database insert commits) enter as explicit parameters.
-/

namespace AttendanceApp

/-- A detected face bounding box `(top, right, bottom, left)`, as produced by
`face_recognition.face_locations`. -/
abbrev Loc := Nat × Nat × Nat × Nat

/-- Modelled from the spec: `database.py` (the ORM schema) is not in `src`.
Spec §3: "Student: identity record — internal id, external student_id, name." -/
structure Student where
  id : Nat
  student_id : String
  name : String

/-- Modelled from the spec: `database.py` is not in `src`. Spec §3: "Face: one
or more stored face encodings (fixed-length numeric vectors) owned by a
Student." `student_id` is the owning student's internal id. -/
structure Face where
  id : Nat
  student_id : Nat
  encoding : List ℚ

/-- Modelled from the spec: `database.py` is not in `src`. Spec §3:
"Attendance: a (student, date) presence record with a timestamp and status."
The route code reads the fields `student_id`, `date`, `timestamp`, `status`. -/
structure Attendance where
  student_id : Nat
  date : Nat
  timestamp : Nat
  status : String

/-- The database state: the three tables of spec §6. -/
structure Db where
  students : List Student
  faces : List Face
  attendance : List Attendance

/-- Squared Euclidean distance between two encodings. The source compares
(unsquared) distances to the tolerance 0.5; squaring both sides is
order-preserving, so match decisions are identical. -/
def sqDist (a b : List ℚ) : ℚ :=
  (List.zipWith (fun x y => (x - y) ^ 2) a b).sum

/-- First index of a minimal element together with that minimum, mirroring
`numpy.argmin` over the distance array (first occurrence wins ties). -/
def argminIdx : List ℚ → Option (Nat × ℚ)
  | [] => none
  | d :: ds =>
    match argminIdx ds with
    | none => some (0, d)
    | some (j, m) => if m < d then some (j + 1, m) else some (0, d)

/-- Modelled from the spec: `models/face_recognition_model.py` (the function
`compare_face`) is not in `src`. Spec §4.1: "Given a list of known encodings
and a live encoding, computes distance to each known encoding, selects the
minimum, and accepts it as a match only if distance is below a fixed tolerance
(0.5). Returns the matched index and a derived confidence score, or no match."
The caller (`recognize`, line 89) receives a pair `match_idx, confidence` and
uses the confidence even for non-matches, so the model returns
`(Option Nat) × ℚ`. `tol2` is the squared tolerance; the derived confidence is
represented by the minimal squared distance (no claim depends on its formula). -/
def compare_face (known : List (List ℚ)) (live : List ℚ) (tol2 : ℚ) :
    Option Nat × ℚ :=
  match argminIdx (known.map (fun k => sqDist k live)) with
  | none => (none, 0)
  | some (j, m) => (if m < tol2 then some j else none, m)

/-- The known-faces query of `recognize` (line 76):
`db.session.query(Face.encoding, Student.id, Student.name).join(Student)` —
each stored face inner-joined to its owning student. -/
structure KnownFace where
  enc : List ℚ
  sid : Nat
  name : String

/-- Row set of the join: for every face, the first student whose internal id
matches the face's `student_id` (rows without a matching student drop out of
the inner join). -/
def knownFaces (db : Db) : List KnownFace :=
  db.faces.filterMap (fun f =>
    (db.students.find? (fun s => s.id == f.student_id)).map
      (fun s => ⟨f.encoding, s.id, s.name⟩))

/-- The existence check of `recognize` (lines 99-102): is there already an
Attendance row for this student and date? -/
def alreadyMarked (table : List Attendance) (pk d : Nat) : Bool :=
  table.any (fun r => r.student_id == pk && r.date == d)

/-- The attendance-marking block of `recognize` (lines 99-112): check
existence, insert if absent; a failing insert is rolled back (table left
unchanged) and logged. `ins` is the commit outcome of the database insert.
Returns the new table, whether the row was marked (controls the "(Marked)"
suffix), and the log messages emitted. -/
def markStep (table : List Attendance) (pk d ts : Nat)
    (ins : Attendance → Except String Unit) :
    List Attendance × Bool × List String :=
  if alreadyMarked table pk d then (table, false, [])
  else
    match ins ⟨pk, d, ts, "Present"⟩ with
    | .ok _ => (table ++ [⟨pk, d, ts, "Present"⟩], true, [])
    | .error e => (table, false, ["Error marking attendance: " ++ e])

/-- One element of the `results` list returned by `recognize`
(lines 114-118). -/
structure FaceResult where
  name : String
  confidence : ℚ
  location : Loc

/-- Accumulator of the per-face loop of `recognize`: results built so far, the
current Attendance table, and the log messages emitted so far. -/
structure StepState where
  results : List FaceResult
  table : List Attendance
  logs : List String

/-- One iteration of the per-face loop of `recognize` (lines 88-118): run the
matcher; an unmatched face is reported as "Unknown"; a matched face is looked
up in the known lists and attendance marking is attempted. -/
def processFace (known : List KnownFace) (d ts : Nat)
    (ins : Attendance → Except String Unit)
    (st : StepState) (p : Loc × List ℚ) : StepState :=
  let cf := compare_face (known.map KnownFace.enc) p.2 (1 / 4)
  match cf.1 with
  | none => ⟨st.results ++ [⟨"Unknown", cf.2, p.1⟩], st.table, st.logs⟩
  | some idx =>
    let kf := known.getD idx ⟨[], 0, ""⟩
    let m := markStep st.table kf.sid d ts ins
    let displayName := if m.2.1 then kf.name ++ " (Marked)" else kf.name
    ⟨st.results ++ [⟨displayName, cf.2, p.1⟩], m.1, st.logs ++ m.2.2⟩

/-- JSON body shapes the routes produce. -/
inductive Body where
  | errorBody (msg : String)
  | resultsWithLocations (results : List FaceResult) (locations : List Loc)
  | resultsOnly (results : List FaceResult)

/-- An HTTP response: status code and JSON body. -/
structure Response where
  status : Nat
  body : Body

/-- The body of `POST /api/recognize` (lines 54-120). `hasFile` is whether the
`image` multipart parameter is present, `decodes` whether `cv2.imdecode`
succeeds; `faceLocations`/`liveEncodings` are the library's detections; `d` is
today's date and `ts` the insert timestamp; `ins` the insert outcome. Returns
the response, the database after the request, and the emitted log messages. -/
def recognize (hasFile decodes : Bool) (faceLocations : List Loc)
    (liveEncodings : List (List ℚ)) (db : Db) (d ts : Nat)
    (ins : Attendance → Except String Unit) :
    Response × Db × List String :=
  if !hasFile then (⟨400, .errorBody "no image uploaded"⟩, db, [])
  else if !decodes then (⟨400, .errorBody "could not decode image"⟩, db, [])
  else
    let known := knownFaces db
    if known.isEmpty then
      (⟨200, .resultsWithLocations [] faceLocations⟩, db, [])
    else
      let fin := (faceLocations.zip liveEncodings).foldl
        (processFace known d ts ins) ⟨[], db.attendance, []⟩
      (⟨200, .resultsOnly fin.results⟩, ⟨db.students, db.faces, fin.table⟩,
        fin.logs)

/-- The outer `try/except` of `recognize` (lines 61 and 122-124): an unhandled
exception with message `e` becomes a 500 response whose JSON body carries the
exception string. -/
def recognizeEndpoint (body : Except String Response) : Response :=
  match body with
  | .ok r => r
  | .error e => ⟨500, .errorBody e⟩

/-- The `try/except` of `get_reports_data` (lines 149 and 178-179): an
unhandled exception becomes a 400 response carrying the exception string. -/
def reportsEndpoint (body : Except String Response) : Response :=
  match body with
  | .ok r => r
  | .error e => ⟨400, .errorBody e⟩

/-- The `try/except` of `export_csv` (lines 184 and 218-219): an unhandled
exception becomes a 400 response carrying the exception string. -/
def exportEndpoint (body : Except String Response) : Response :=
  match body with
  | .ok r => r
  | .error e => ⟨400, .errorBody e⟩

/-- One entry of the `/api/reports` JSON (lines 168-174). -/
structure ReportEntry where
  id : Nat
  student_id : String
  name : String
  present_count : Nat
  present_dates : List Nat

/-- The per-student query of `get_reports_data` (lines 161-165): Attendance
rows of the student whose date lies in `[s, e]`. -/
def recordsInRange (att : List Attendance) (sid s e : Nat) : List Attendance :=
  att.filter (fun r =>
    r.student_id == sid && (decide (s ≤ r.date) && decide (r.date ≤ e)))

/-- The report entry of `get_reports_data` (lines 160-174): `present_dates` is
the set of dates of the in-range records (Python builds a set of ISO strings;
`dedup` models it, ISO formatting being injective), `present_count` its size. -/
def reportEntry (att : List Attendance) (s e : Nat) (st : Student) :
    ReportEntry :=
  let presentDates := ((recordsInRange att st.id s e).map Attendance.date).dedup
  ⟨st.id, st.student_id, st.name, presentDates.length, presentDates⟩

/-- The body of `GET /api/reports` (lines 146-176): one entry per student. -/
def get_reports_data (db : Db) (s e : Nat) : List ReportEntry :=
  db.students.map (reportEntry db.attendance s e)

/-- The CSV ordering of `export_csv` (line 194):
`order_by(Attendance.date, Student.name, Attendance.timestamp)`. -/
def csvLe (a b : Attendance × Student) : Bool :=
  decide (a.1.date < b.1.date) ||
    (a.1.date == b.1.date &&
      (decide (a.2.name < b.2.name) ||
        (a.2.name == b.2.name && decide (a.1.timestamp ≤ b.1.timestamp))))

/-- The query of `export_csv` (lines 191-194): Attendance inner-joined to
Student, filtered to the date range, sorted by (date, name, timestamp). -/
def exportRecords (db : Db) (s e : Nat) : List (Attendance × Student) :=
  (db.attendance.filterMap (fun a =>
    if s ≤ a.date ∧ a.date ≤ e then
      (db.students.find? (fun st => st.id == a.student_id)).map
        (fun st => (a, st))
    else none)).mergeSort csvLe

/-- One CSV data row (lines 201-208). -/
def csvRow (p : Attendance × Student) : List String :=
  [p.2.name, p.2.student_id, toString p.1.date, toString p.1.timestamp,
    p.1.status]

/-- The CSV produced by `GET /api/reports/export` (lines 196-208): the header
row followed by one data row per joined record. -/
def export_csv (db : Db) (s e : Nat) : List (List String) :=
  ["Student Name", "Student ID", "Date", "Time", "Status"] ::
    (exportRecords db s e).map csvRow

/-- Number of Attendance rows for a given (student, date) pair. -/
def pairCount (table : List Attendance) (sid d : Nat) : Nat :=
  (table.filter (fun r => r.student_id == sid && r.date == d)).length

/-- The uniqueness invariant of spec §3: at most one Attendance row per
(student_id, date) pair. -/
def AttInv (table : List Attendance) : Prop :=
  ∀ sid d, pairCount table sid d ≤ 1

/-- The distinct dates within `[s, e]` on which a student has at least one
Attendance row (the reference set for the `present_count` claim). -/
def presentDateSet (att : List Attendance) (sid s e : Nat) : Finset Nat :=
  ((recordsInRange att sid s e).map Attendance.date).toFinset

/-! ### Lemmas about the matcher -/

theorem mem_of_getElem_eq {α : Type} (l : List α) (j : Nat) (m : α)
    (h : l[j]? = some m) : m ∈ l := by
  induction l generalizing j with
  | nil => simp at h
  | cons a t ih =>
    cases j with
    | zero => simp at h; simp [h]
    | succ k =>
      simp only [List.getElem?_cons_succ] at h
      exact List.mem_cons_of_mem _ (ih k h)

theorem sqDist_self (a : List ℚ) : sqDist a a = 0 := by
  induction a with
  | nil => simp [sqDist]
  | cons x xs ih =>
    simp only [sqDist, List.zipWith_cons_cons, List.sum_cons] at *
    simp [ih]

theorem sqDist_nonneg (a b : List ℚ) : 0 ≤ sqDist a b := by
  induction a generalizing b with
  | nil => simp [sqDist]
  | cons x xs ih =>
    cases b with
    | nil => simp [sqDist]
    | cons y ys =>
      have h := ih ys
      have h2 : 0 ≤ (x - y) ^ 2 := sq_nonneg _
      simp only [sqDist, List.zipWith_cons_cons, List.sum_cons] at *
      linarith

theorem argminIdx_eq_none (ds : List ℚ) : argminIdx ds = none ↔ ds = [] := by
  cases ds with
  | nil => simp [argminIdx]
  | cons d t =>
    cases ht : argminIdx t with
    | none => simp [argminIdx, ht]
    | some jm =>
      obtain ⟨j, m⟩ := jm
      by_cases hc : m < d
      · simp [argminIdx, ht, if_pos hc]
      · simp [argminIdx, ht, if_neg hc]

theorem argminIdx_getElem (ds : List ℚ) (j : Nat) (m : ℚ)
    (h : argminIdx ds = some (j, m)) : ds[j]? = some m := by
  induction ds generalizing j m with
  | nil => simp [argminIdx] at h
  | cons d t ih =>
    cases ht : argminIdx t with
    | none =>
      simp only [argminIdx, ht, Option.some.injEq, Prod.mk.injEq] at h
      obtain ⟨hj, hm⟩ := h
      subst hj; subst hm; simp
    | some jm =>
      obtain ⟨j', m'⟩ := jm
      by_cases hc : m' < d
      · simp only [argminIdx, ht, if_pos hc, Option.some.injEq,
          Prod.mk.injEq] at h
        obtain ⟨hj, hm⟩ := h
        subst hj; subst hm
        simpa using ih _ _ ht
      · simp only [argminIdx, ht, if_neg hc, Option.some.injEq,
          Prod.mk.injEq] at h
        obtain ⟨hj, hm⟩ := h
        subst hj; subst hm; simp

theorem argminIdx_le (ds : List ℚ) (j : Nat) (m : ℚ)
    (h : argminIdx ds = some (j, m)) : ∀ x ∈ ds, m ≤ x := by
  induction ds generalizing j m with
  | nil => simp [argminIdx] at h
  | cons d t ih =>
    cases ht : argminIdx t with
    | none =>
      simp only [argminIdx, ht, Option.some.injEq, Prod.mk.injEq] at h
      obtain ⟨hj, hm⟩ := h
      subst hm
      have htnil : t = [] := (argminIdx_eq_none t).mp ht
      subst htnil
      simp
    | some jm =>
      obtain ⟨j', m'⟩ := jm
      have iht := ih j' m' ht
      by_cases hc : m' < d
      · simp only [argminIdx, ht, if_pos hc, Option.some.injEq,
          Prod.mk.injEq] at h
        obtain ⟨hj, hm⟩ := h
        subst hm
        intro x hx
        rcases List.mem_cons.mp hx with hx | hx
        · subst hx; exact le_of_lt hc
        · exact iht x hx
      · simp only [argminIdx, ht, if_neg hc, Option.some.injEq,
          Prod.mk.injEq] at h
        obtain ⟨hj, hm⟩ := h
        subst hm
        intro x hx
        rcases List.mem_cons.mp hx with hx | hx
        · subst hx; exact le_rfl
        · exact le_trans (not_lt.mp hc) (iht x hx)

theorem argminIdx_first_zero (ds : List ℚ) (i : Nat)
    (hi : ds[i]? = some 0) (hnn : ∀ x ∈ ds, 0 ≤ x)
    (hfst : ∀ j x, j < i → ds[j]? = some x → x ≠ 0) :
    argminIdx ds = some (i, 0) := by
  induction ds generalizing i with
  | nil => simp at hi
  | cons d t ih =>
    cases i with
    | zero =>
      simp only [List.getElem?_cons_zero, Option.some.injEq] at hi
      subst hi
      cases ht : argminIdx t with
      | none => simp [argminIdx, ht]
      | some jm =>
        obtain ⟨j, m⟩ := jm
        have hmem : m ∈ t := mem_of_getElem_eq t j m (argminIdx_getElem t j m ht)
        have hm : 0 ≤ m := hnn m (List.mem_cons_of_mem _ hmem)
        simp [argminIdx, ht, if_neg (not_lt.mpr hm)]
    | succ k =>
      simp only [List.getElem?_cons_succ] at hi
      have hnn' : ∀ x ∈ t, 0 ≤ x := fun x hx => hnn x (List.mem_cons_of_mem _ hx)
      have hfst' : ∀ j x, j < k → t[j]? = some x → x ≠ 0 := by
        intro j x hj hx
        exact hfst (j + 1) x (by omega) (by simpa using hx)
      have iht := ih k hi hnn' hfst'
      have hd0 : d ≠ 0 := hfst 0 d (by omega) (by simp)
      have hdpos : 0 < d :=
        lt_of_le_of_ne (hnn d (List.mem_cons_self d t)) (Ne.symm hd0)
      simp only [argminIdx, iht, if_pos hdpos]

/-- C2: for every non-empty list of known encodings and every live encoding,
the matcher computes the distance to each known encoding, selects the minimum,
and returns that index as a match if and only if the minimum distance is below
the fixed tolerance (0.5, i.e. squared distance below 1/4); in particular,
when every known encoding is farther than the tolerance, it returns no
match. -/
theorem c2_matcher_min_below_tolerance (known : List (List ℚ)) (live : List ℚ)
    (hne : known ≠ []) :
    ∃ j m, (known.map (fun k => sqDist k live))[j]? = some m ∧
      (∀ x ∈ known.map (fun k => sqDist k live), m ≤ x) ∧
      ((compare_face known live (1 / 4)).1 = some j ↔ m < 1 / 4) ∧
      ((∀ x ∈ known.map (fun k => sqDist k live), 1 / 4 < x) →
        (compare_face known live (1 / 4)).1 = none) := by
  cases hA : argminIdx (known.map (fun k => sqDist k live)) with
  | none =>
    exact absurd ((argminIdx_eq_none _).mp hA) (by simpa using hne)
  | some jm =>
    obtain ⟨j, m⟩ := jm
    refine ⟨j, m, argminIdx_getElem _ _ _ hA, argminIdx_le _ _ _ hA, ?_, ?_⟩
    · by_cases hc : m < 1 / 4
      · simp [compare_face, hA, hc]
      · simp [compare_face, hA, hc]
    · intro hall
      have hmmem : m ∈ known.map (fun k => sqDist k live) :=
        mem_of_getElem_eq _ _ _ (argminIdx_getElem _ _ _ hA)
      have : ¬ m < 1 / 4 := not_lt.mpr (le_of_lt (hall m hmmem))
      simp only [compare_face, hA, if_neg this]

/-- Witness for C2 at the concrete input `known = [[0], [1]]`, `live = [0]`. -/
theorem c2_matcher_min_below_tolerance_witness :
    ∃ j m, (([[0], [1]] : List (List ℚ)).map (fun k => sqDist k [0]))[j]? = some m ∧
      (∀ x ∈ ([[0], [1]] : List (List ℚ)).map (fun k => sqDist k [0]), m ≤ x) ∧
      ((compare_face [[0], [1]] [0] (1 / 4)).1 = some j ↔ m < 1 / 4) ∧
      ((∀ x ∈ ([[0], [1]] : List (List ℚ)).map (fun k => sqDist k [0]), 1 / 4 < x) →
        (compare_face [[0], [1]] [0] (1 / 4)).1 = none) :=
  c2_matcher_min_below_tolerance [[0], [1]] [0] (by simp)

/-- C3 counterexample: the list `[[0], [0]]` contains the encoding `[0]` of
the student at index 1 (two students share one encoding), yet the matcher run
on that very encoding returns index 0, not index 1. -/
theorem c3_matcher_self_counterexample :
    ([[0], [0]] : List (List ℚ))[1]? = some [0] ∧
      (compare_face [[0], [0]] [0] (1 / 4)).1 ≠ some 1 := by
  constructor
  · rfl
  · norm_num [compare_face, argminIdx, sqDist]

/-- C3 amended: for every known student whose encoding sits at index `i` of
the known list, if no earlier entry of the list is at distance zero from that
encoding (no earlier duplicate), then running the matcher with the student's
own encoding as the live encoding returns that student's index `i`. -/
theorem c3_matcher_self_match (known : List (List ℚ)) (e : List ℚ) (i : Nat)
    (hi : known[i]? = some e)
    (hfst : ∀ j k, j < i → known[j]? = some k → sqDist k e ≠ 0) :
    (compare_face known e (1 / 4)).1 = some i := by
  have hds : (known.map (fun k => sqDist k e))[i]? = some 0 := by
    rw [List.getElem?_map, hi]
    simp [sqDist_self]
  have hnn : ∀ x ∈ known.map (fun k => sqDist k e), 0 ≤ x := by
    intro x hx
    obtain ⟨k, _, hk⟩ := List.mem_map.mp hx
    exact hk ▸ sqDist_nonneg k e
  have hz : ∀ j x, j < i → (known.map (fun k => sqDist k e))[j]? = some x → x ≠ 0 := by
    intro j x hj hx
    rw [List.getElem?_map] at hx
    cases hkj : known[j]? with
    | none => rw [hkj] at hx; simp at hx
    | some k =>
      rw [hkj] at hx
      simp at hx
      subst hx
      exact hfst j k hj hkj
  have hA := argminIdx_first_zero _ i hds hnn hz
  have : (0 : ℚ) < 1 / 4 := by norm_num
  simp [compare_face, hA, this]

/-- Witness for the amended C3 at `known = [[1], [0]]`, student index 1. -/
theorem c3_matcher_self_match_witness :
    (compare_face [[1], [0]] [0] (1 / 4)).1 = some 1 := by
  refine c3_matcher_self_match [[1], [0]] [0] 1 rfl ?_
  intro j k hj hk
  have hj0 : j = 0 := Nat.lt_one_iff.mp hj
  subst hj0
  have hk1 : k = [1] := by
    rw [show ([[1], [0]] : List (List ℚ))[0]? = some [1] from rfl] at hk
    exact (Option.some_inj.mp hk).symm
  subst hk1
  norm_num [sqDist]

/-! ### Lemmas about attendance marking -/

theorem alreadyMarked_iff (table : List Attendance) (pk d : Nat) :
    alreadyMarked table pk d = true ↔ 0 < pairCount table pk d := by
  unfold alreadyMarked pairCount
  rw [List.any_eq_true, List.length_pos]
  constructor
  · rintro ⟨r, hr, hp⟩
    intro hnil
    exact List.filter_eq_nil_iff.mp hnil r hr hp
  · intro hne
    obtain ⟨r, hr⟩ := List.exists_mem_of_ne_nil _ hne
    have hmem := List.mem_filter.mp hr
    exact ⟨r, hmem.1, hmem.2⟩

theorem pairCount_append (t1 t2 : List Attendance) (sid d : Nat) :
    pairCount (t1 ++ t2) sid d = pairCount t1 sid d + pairCount t2 sid d := by
  simp [pairCount, List.filter_append]

theorem pairCount_single (pk d0 ts : Nat) (s : String) (sid d : Nat) :
    pairCount [⟨pk, d0, ts, s⟩] sid d = if pk = sid ∧ d0 = d then 1 else 0 := by
  by_cases h : pk = sid ∧ d0 = d
  · simp [pairCount, h]
  · rw [if_neg h]
    simp [pairCount]
    omega

theorem pairCount_zero_of_not_marked (table : List Attendance) (pk d : Nat)
    (h : alreadyMarked table pk d = false) : pairCount table pk d = 0 := by
  by_contra hne
  have hpos : 0 < pairCount table pk d := Nat.pos_of_ne_zero hne
  rw [← alreadyMarked_iff, h] at hpos
  exact Bool.false_ne_true hpos

theorem markStep_of_marked (table : List Attendance) (pk d ts : Nat)
    (ins : Attendance → Except String Unit)
    (h : alreadyMarked table pk d = true) :
    markStep table pk d ts ins = (table, false, []) := by
  simp [markStep, h]

theorem markStep_of_ok (table : List Attendance) (pk d ts : Nat)
    (ins : Attendance → Except String Unit)
    (h : alreadyMarked table pk d = false)
    (hins : ins ⟨pk, d, ts, "Present"⟩ = Except.ok ()) :
    markStep table pk d ts ins =
      (table ++ [⟨pk, d, ts, "Present"⟩], true, []) := by
  simp [markStep, h, hins]

theorem markStep_of_error (table : List Attendance) (pk d ts : Nat)
    (ins : Attendance → Except String Unit) (e : String)
    (h : alreadyMarked table pk d = false)
    (hins : ins ⟨pk, d, ts, "Present"⟩ = Except.error e) :
    markStep table pk d ts ins =
      (table, false, ["Error marking attendance: " ++ e]) := by
  simp [markStep, h, hins]

theorem markStep_attInv (table : List Attendance) (pk d ts : Nat)
    (ins : Attendance → Except String Unit) (h : AttInv table) :
    AttInv (markStep table pk d ts ins).1 := by
  cases hm : alreadyMarked table pk d with
  | true => rw [markStep_of_marked table pk d ts ins hm]; exact h
  | false =>
    cases hins : ins ⟨pk, d, ts, "Present"⟩ with
    | error e => rw [markStep_of_error table pk d ts ins e hm hins]; exact h
    | ok u =>
      cases u
      rw [markStep_of_ok table pk d ts ins hm hins]
      intro sid d'
      rw [pairCount_append, pairCount_single]
      by_cases hc : pk = sid ∧ d = d'
      · rw [if_pos hc]
        obtain ⟨h1, h2⟩ := hc
        subst h1; subst h2
        have h0 : pairCount table pk d = 0 :=
          pairCount_zero_of_not_marked table pk d hm
        omega
      · rw [if_neg hc]
        have := h sid d'
        omega

theorem processFace_unmatched (known : List KnownFace) (d ts : Nat)
    (ins : Attendance → Except String Unit) (st : StepState)
    (loc : Loc) (enc : List ℚ)
    (h : (compare_face (known.map KnownFace.enc) enc (1 / 4)).1 = none) :
    processFace known d ts ins st (loc, enc) =
      ⟨st.results ++
        [⟨"Unknown", (compare_face (known.map KnownFace.enc) enc (1 / 4)).2,
          loc⟩],
        st.table, st.logs⟩ := by
  simp only [processFace]
  rw [h]

theorem processFace_matched (known : List KnownFace) (d ts : Nat)
    (ins : Attendance → Except String Unit) (st : StepState)
    (loc : Loc) (enc : List ℚ) (idx : Nat)
    (h : (compare_face (known.map KnownFace.enc) enc (1 / 4)).1 = some idx) :
    processFace known d ts ins st (loc, enc) =
      ⟨st.results ++
        [⟨(if (markStep st.table (known.getD idx ⟨[], 0, ""⟩).sid d ts ins).2.1
            then (known.getD idx ⟨[], 0, ""⟩).name ++ " (Marked)"
            else (known.getD idx ⟨[], 0, ""⟩).name),
          (compare_face (known.map KnownFace.enc) enc (1 / 4)).2, loc⟩],
        (markStep st.table (known.getD idx ⟨[], 0, ""⟩).sid d ts ins).1,
        st.logs ++
          (markStep st.table (known.getD idx ⟨[], 0, ""⟩).sid d ts ins).2.2⟩ := by
  simp only [processFace]
  rw [h]

theorem processFace_attInv (known : List KnownFace) (d ts : Nat)
    (ins : Attendance → Except String Unit) (st : StepState)
    (p : Loc × List ℚ) (h : AttInv st.table) :
    AttInv (processFace known d ts ins st p).table := by
  obtain ⟨loc, enc⟩ := p
  cases hm : (compare_face (known.map KnownFace.enc) enc (1 / 4)).1 with
  | none => rw [processFace_unmatched known d ts ins st loc enc hm]; exact h
  | some idx =>
    rw [processFace_matched known d ts ins st loc enc idx hm]
    exact markStep_attInv _ _ _ _ _ h

theorem foldl_processFace_attInv (known : List KnownFace) (d ts : Nat)
    (ins : Attendance → Except String Unit) (l : List (Loc × List ℚ)) :
    ∀ st : StepState, AttInv st.table →
      AttInv ((l.foldl (processFace known d ts ins) st).table) := by
  induction l with
  | nil => intro st h; simpa using h
  | cons p l ih =>
    intro st h
    simp only [List.foldl_cons]
    exact ih _ (processFace_attInv known d ts ins st p h)

theorem processFace_table_sub (known : List KnownFace) (d ts : Nat)
    (ins : Attendance → Except String Unit) (st : StepState)
    (p : Loc × List ℚ) :
    ∃ a, (processFace known d ts ins st p).table = st.table ++ a ∧
      ∀ r ∈ a, r.date = d ∧ r.timestamp = ts ∧
        ∃ i, (compare_face (known.map KnownFace.enc) p.2 (1 / 4)).1 = some i ∧
          r.student_id = (known.getD i ⟨[], 0, ""⟩).sid := by
  obtain ⟨loc, enc⟩ := p
  cases hm : (compare_face (known.map KnownFace.enc) enc (1 / 4)).1 with
  | none =>
    exact ⟨[], by rw [processFace_unmatched known d ts ins st loc enc hm]; simp,
      by simp⟩
  | some idx =>
    rw [processFace_matched known d ts ins st loc enc idx hm]
    cases ham : alreadyMarked st.table (known.getD idx ⟨[], 0, ""⟩).sid d with
    | true =>
      exact ⟨[], by rw [markStep_of_marked _ _ _ _ _ ham]; simp, by simp⟩
    | false =>
      cases hins : ins ⟨(known.getD idx ⟨[], 0, ""⟩).sid, d, ts, "Present"⟩ with
      | ok u =>
        cases u
        refine ⟨[⟨(known.getD idx ⟨[], 0, ""⟩).sid, d, ts, "Present"⟩], ?_, ?_⟩
        · rw [markStep_of_ok _ _ _ _ _ ham hins]
        · intro r hr
          simp only [List.mem_singleton] at hr
          subst hr
          exact ⟨rfl, rfl, idx, rfl, rfl⟩
      | error e =>
        exact ⟨[], by rw [markStep_of_error _ _ _ _ _ _ ham hins]; simp,
          by simp⟩

theorem foldl_processFace_table (known : List KnownFace) (d ts : Nat)
    (ins : Attendance → Except String Unit) (l : List (Loc × List ℚ)) :
    ∀ st : StepState,
      ∃ a, ((l.foldl (processFace known d ts ins) st).table = st.table ++ a) ∧
        ∀ r ∈ a, r.date = d ∧ r.timestamp = ts ∧
          ∃ p ∈ l, ∃ i,
            (compare_face (known.map KnownFace.enc) p.2 (1 / 4)).1 = some i ∧
            r.student_id = (known.getD i ⟨[], 0, ""⟩).sid := by
  induction l with
  | nil => intro st; exact ⟨[], by simp, by simp⟩
  | cons p l ih =>
    intro st
    obtain ⟨a0, ha0, hP0⟩ := processFace_table_sub known d ts ins st p
    obtain ⟨a1, ha1, hP1⟩ := ih (processFace known d ts ins st p)
    refine ⟨a0 ++ a1, ?_, ?_⟩
    · rw [List.foldl_cons, ha1, ha0, List.append_assoc]
    · intro r hr
      rcases List.mem_append.mp hr with hr | hr
      · obtain ⟨h1, h2, i, h3, h4⟩ := hP0 r hr
        exact ⟨h1, h2, p, List.mem_cons_self p l, i, h3, h4⟩
      · obtain ⟨h1, h2, q, hq, i, h3, h4⟩ := hP1 r hr
        exact ⟨h1, h2, q, List.mem_cons_of_mem p hq, i, h3, h4⟩

/-- C1: the at-most-one-Attendance-row-per-(student, date) invariant is
preserved by every recognition request (the endpoint checks existence before
inserting), and marking attendance twice for the same student on the same
date — two marking steps, the first insert committing — leaves exactly one
row for that pair. -/
theorem c1_attendance_row_unique :
    (∀ hasFile decodes locs encs db d ts ins, AttInv db.attendance →
      AttInv (recognize hasFile decodes locs encs db d ts ins).2.1.attendance) ∧
    (∀ table pk d ts ts2 ins ins2, pairCount table pk d = 0 →
      ins ⟨pk, d, ts, "Present"⟩ = Except.ok () →
      pairCount (markStep (markStep table pk d ts ins).1 pk d ts2 ins2).1
        pk d = 1) := by
  constructor
  · intro hasFile decodes locs encs db d ts ins h
    cases hasFile with
    | false => simpa [recognize] using h
    | true =>
      cases decodes with
      | false => simpa [recognize] using h
      | true =>
        cases hk : (knownFaces db).isEmpty with
        | true => simpa [recognize, hk] using h
        | false =>
          simp only [recognize, hk, Bool.not_true, Bool.false_eq_true,
            if_false, Bool.not_false, if_true]
          exact foldl_processFace_attInv _ _ _ _ _ _ h
  · intro table pk d ts ts2 ins ins2 h0 hins
    have hm : alreadyMarked table pk d = false := by
      cases hmm : alreadyMarked table pk d with
      | false => rfl
      | true =>
        have := (alreadyMarked_iff table pk d).mp hmm
        omega
    rw [markStep_of_ok table pk d ts ins hm hins]
    have h1 : pairCount (table ++ [⟨pk, d, ts, "Present"⟩]) pk d = 1 := by
      rw [pairCount_append, pairCount_single, if_pos ⟨rfl, rfl⟩]
      omega
    have hm2 : alreadyMarked (table ++ [⟨pk, d, ts, "Present"⟩]) pk d = true := by
      rw [alreadyMarked_iff]
      omega
    rw [markStep_of_marked _ _ _ _ _ hm2]
    exact h1

/-- Witness for C1: the invariant holds after a concrete request on an empty
database, and double-marking student 5 on date 3 leaves exactly one row. -/
theorem c1_attendance_row_unique_witness :
    AttInv (recognize true true [] [] ⟨[], [], []⟩ 0 0
      (fun _ => Except.ok ())).2.1.attendance ∧
    pairCount (markStep (markStep [] 5 3 1 (fun _ => Except.ok ())).1 5 3 2
      (fun _ => Except.ok ())).1 5 3 = 1 := by
  constructor
  · exact c1_attendance_row_unique.1 true true [] [] ⟨[], [], []⟩ 0 0
      (fun _ => Except.ok ()) (fun sid d => by simp [pairCount])
  · exact c1_attendance_row_unique.2 [] 5 3 1 2 (fun _ => Except.ok ())
      (fun _ => Except.ok ()) (by simp [pairCount]) rfl

/-- C6: when a matched, not-yet-marked face's attendance insert raises, the
insert is rolled back (the table is unchanged), the error is logged, and the
face is still reported under the student's name without the " (Marked)"
suffix; when the insert commits, the row is appended and the returned name
carries the suffix. -/
theorem c6_insert_failure_rolled_back (known : List KnownFace) (d ts : Nat)
    (ins : Attendance → Except String Unit) (st : StepState)
    (loc : Loc) (enc : List ℚ) (idx : Nat)
    (hmatch : (compare_face (known.map KnownFace.enc) enc (1 / 4)).1 = some idx)
    (hnew : alreadyMarked st.table (known.getD idx ⟨[], 0, ""⟩).sid d = false) :
    (∀ e, ins ⟨(known.getD idx ⟨[], 0, ""⟩).sid, d, ts, "Present"⟩ =
        Except.error e →
      processFace known d ts ins st (loc, enc) =
        ⟨st.results ++ [⟨(known.getD idx ⟨[], 0, ""⟩).name,
          (compare_face (known.map KnownFace.enc) enc (1 / 4)).2, loc⟩],
          st.table,
          st.logs ++ ["Error marking attendance: " ++ e]⟩) ∧
    (ins ⟨(known.getD idx ⟨[], 0, ""⟩).sid, d, ts, "Present"⟩ =
        Except.ok () →
      processFace known d ts ins st (loc, enc) =
        ⟨st.results ++ [⟨(known.getD idx ⟨[], 0, ""⟩).name ++ " (Marked)",
          (compare_face (known.map KnownFace.enc) enc (1 / 4)).2, loc⟩],
          st.table ++ [⟨(known.getD idx ⟨[], 0, ""⟩).sid, d, ts, "Present"⟩],
          st.logs⟩) := by
  constructor
  · intro e hins
    rw [processFace_matched known d ts ins st loc enc idx hmatch,
      markStep_of_error _ _ _ _ _ _ hnew hins]
    simp
  · intro hins
    rw [processFace_matched known d ts ins st loc enc idx hmatch,
      markStep_of_ok _ _ _ _ _ hnew hins]
    simp

/-- Witness for C6: one known face "Alice", a failing insert and a committing
insert, starting from an empty Attendance table. -/
theorem c6_insert_failure_rolled_back_witness :
    (processFace [⟨[0], 7, "Alice"⟩] 1 2 (fun _ => Except.error "boom")
        ⟨[], [], []⟩ ((0, 0, 0, 0), [0]) =
      ⟨[⟨"Alice",
          (compare_face (([⟨[0], 7, "Alice"⟩] : List KnownFace).map
            KnownFace.enc) [0] (1 / 4)).2, (0, 0, 0, 0)⟩],
        [], ["Error marking attendance: " ++ "boom"]⟩) ∧
    (processFace [⟨[0], 7, "Alice"⟩] 1 2 (fun _ => Except.ok ())
        ⟨[], [], []⟩ ((0, 0, 0, 0), [0]) =
      ⟨[⟨"Alice" ++ " (Marked)",
          (compare_face (([⟨[0], 7, "Alice"⟩] : List KnownFace).map
            KnownFace.enc) [0] (1 / 4)).2, (0, 0, 0, 0)⟩],
        [⟨7, 1, 2, "Present"⟩], []⟩) := by
  have hmatch : (compare_face (([⟨[0], 7, "Alice"⟩] : List KnownFace).map
      KnownFace.enc) [0] (1 / 4)).1 = some 0 := by
    norm_num [compare_face, argminIdx, sqDist]
  exact ⟨(c6_insert_failure_rolled_back [⟨[0], 7, "Alice"⟩] 1 2
      (fun _ => Except.error "boom") ⟨[], [], []⟩ (0, 0, 0, 0) [0] 0 hmatch
      rfl).1 "boom" rfl,
    (c6_insert_failure_rolled_back [⟨[0], 7, "Alice"⟩] 1 2
      (fun _ => Except.ok ()) ⟨[], [], []⟩ (0, 0, 0, 0) [0] 0 hmatch
      rfl).2 rfl⟩

/-- C9: with no stored face encodings, a recognition request with a present,
decodable image returns 200 with an empty results list together with the
detected face locations, leaves the database unchanged and logs nothing —
regardless of how many faces were detected. -/
theorem c9_no_known_encodings (locs : List Loc) (encs : List (List ℚ))
    (db : Db) (d ts : Nat) (ins : Attendance → Except String Unit)
    (h : knownFaces db = []) :
    recognize true true locs encs db d ts ins =
      (⟨200, Body.resultsWithLocations [] locs⟩, db, []) := by
  simp [recognize, h]

/-- Witness for C9: a database holding a student but no Face rows, and a
frame with two detected faces. -/
theorem c9_no_known_encodings_witness :
    recognize true true [(1, 2, 3, 4), (5, 6, 7, 8)] [[0], [1]]
        ⟨[⟨1, "S1", "Ada"⟩], [], []⟩ 9 10 (fun _ => Except.ok ()) =
      (⟨200, Body.resultsWithLocations [] [(1, 2, 3, 4), (5, 6, 7, 8)]⟩,
        ⟨[⟨1, "S1", "Ada"⟩], [], []⟩, []) :=
  c9_no_known_encodings _ _ _ _ _ _ rfl

/-- C10: a face the matcher does not match is reported with the name
"Unknown" and changes nothing; a recognition request never modifies the
Student or Face tables, and the Attendance table only grows, each added row
carrying today's date and the student id of a matched index of the
known-faces list. -/
theorem c10_unknown_and_frame :
    (∀ known d ts ins st loc enc,
      (compare_face (known.map KnownFace.enc) enc (1 / 4)).1 = none →
      processFace known d ts ins st (loc, enc) =
        ⟨st.results ++ [⟨"Unknown",
          (compare_face (known.map KnownFace.enc) enc (1 / 4)).2, loc⟩],
          st.table, st.logs⟩) ∧
    (∀ hasFile decodes locs encs db d ts ins,
      (recognize hasFile decodes locs encs db d ts ins).2.1.students =
        db.students ∧
      (recognize hasFile decodes locs encs db d ts ins).2.1.faces =
        db.faces ∧
      ∃ added,
        (recognize hasFile decodes locs encs db d ts ins).2.1.attendance =
          db.attendance ++ added ∧
        ∀ r ∈ added, r.date = d ∧
          ∃ p ∈ locs.zip encs, ∃ i,
            (compare_face ((knownFaces db).map KnownFace.enc) p.2
              (1 / 4)).1 = some i ∧
            r.student_id = ((knownFaces db).getD i ⟨[], 0, ""⟩).sid) := by
  constructor
  · intro known d ts ins st loc enc h
    exact processFace_unmatched known d ts ins st loc enc h
  · intro hasFile decodes locs encs db d ts ins
    cases hasFile with
    | false =>
      exact ⟨by simp [recognize], by simp [recognize], [],
        by simp [recognize], by simp⟩
    | true =>
      cases decodes with
      | false =>
        exact ⟨by simp [recognize], by simp [recognize], [],
          by simp [recognize], by simp⟩
      | true =>
        cases hk : (knownFaces db).isEmpty with
        | true =>
          exact ⟨by simp [recognize, hk], by simp [recognize, hk], [],
            by simp [recognize, hk], by simp⟩
        | false =>
          obtain ⟨a, ha, hP⟩ := foldl_processFace_table (knownFaces db) d ts
            ins (locs.zip encs) ⟨[], db.attendance, []⟩
          refine ⟨by simp [recognize, hk], by simp [recognize, hk], a, ?_, ?_⟩
          · simp only [recognize, hk, Bool.not_true, Bool.false_eq_true,
              if_false, Bool.not_false, if_true]
            exact ha
          · intro r hr
            obtain ⟨h1, h2, p, hp, i, h3, h4⟩ := hP r hr
            exact ⟨h1, p, hp, i, h3, h4⟩

/-- Witness for C10: an unmatched face (distance 1 > tolerance) on a concrete
state, and the frame property on a concrete request. -/
theorem c10_unknown_and_frame_witness :
    (processFace [⟨[0], 7, "Alice"⟩] 1 2 (fun _ => Except.ok ())
        ⟨[], [], []⟩ ((0, 0, 0, 0), [1]) =
      ⟨[⟨"Unknown",
          (compare_face (([⟨[0], 7, "Alice"⟩] : List KnownFace).map
            KnownFace.enc) [1] (1 / 4)).2, (0, 0, 0, 0)⟩],
        [], []⟩) ∧
    ((recognize true true [] [] ⟨[], [], []⟩ 3 4
        (fun _ => Except.ok ())).2.1.students = [] ∧
      (recognize true true [] [] ⟨[], [], []⟩ 3 4
        (fun _ => Except.ok ())).2.1.faces = [] ∧
      ∃ added,
        (recognize true true [] [] ⟨[], [], []⟩ 3 4
          (fun _ => Except.ok ())).2.1.attendance = [] ++ added ∧
        ∀ r ∈ added, r.date = 3 ∧
          ∃ p ∈ ([] : List Loc).zip ([] : List (List ℚ)), ∃ i,
            (compare_face ((knownFaces ⟨[], [], []⟩).map KnownFace.enc) p.2
              (1 / 4)).1 = some i ∧
            r.student_id =
              ((knownFaces ⟨[], [], []⟩).getD i ⟨[], 0, ""⟩).sid) :=
  ⟨c10_unknown_and_frame.1 [⟨[0], 7, "Alice"⟩] 1 2 (fun _ => Except.ok ())
      ⟨[], [], []⟩ (0, 0, 0, 0) [1]
      (by norm_num [compare_face, argminIdx, sqDist]),
    c10_unknown_and_frame.2 true true [] [] ⟨[], [], []⟩ 3 4
      (fun _ => Except.ok ())⟩

/-- C7: POST /api/recognize returns 400 with a JSON error message when the
request is missing the image file parameter, and 400 with a JSON error
message when the uploaded bytes cannot be decoded into an image. -/
theorem c7_bad_request_400 :
    (∀ decodes locs encs db d ts ins,
      recognize false decodes locs encs db d ts ins =
        (⟨400, Body.errorBody "no image uploaded"⟩, db, [])) ∧
    (∀ locs encs db d ts ins,
      recognize true false locs encs db d ts ins =
        (⟨400, Body.errorBody "could not decode image"⟩, db, [])) :=
  ⟨fun _ _ _ _ _ _ _ => rfl, fun _ _ _ _ _ _ => rfl⟩

/-- C8: an unhandled exception inside the recognition endpoint yields a 500
response whose JSON body carries the exception string, while an unhandled
exception inside either reporting endpoint yields a 400 response carrying
the exception string. -/
theorem c8_unhandled_exception_statuses (e : String) :
    recognizeEndpoint (Except.error e) = ⟨500, Body.errorBody e⟩ ∧
    reportsEndpoint (Except.error e) = ⟨400, Body.errorBody e⟩ ∧
    exportEndpoint (Except.error e) = ⟨400, Body.errorBody e⟩ :=
  ⟨rfl, rfl, rfl⟩

/-- C5: for every student in the database, the report entry returned by
GET /api/reports carries a present_count equal to the number of distinct
dates within the requested range on which that student has at least one
Attendance row. -/
theorem c5_present_count_distinct_dates (db : Db) (s e : Nat) (i : Nat)
    (st : Student) (hst : db.students[i]? = some st) :
    ∃ entry, (get_reports_data db s e)[i]? = some entry ∧
      entry.present_count = (presentDateSet db.attendance st.id s e).card ∧
      ∀ d, d ∈ presentDateSet db.attendance st.id s e ↔
        ∃ r ∈ db.attendance, r.student_id = st.id ∧ s ≤ r.date ∧
          r.date ≤ e ∧ r.date = d := by
  refine ⟨reportEntry db.attendance s e st, ?_, ?_, ?_⟩
  · rw [get_reports_data, List.getElem?_map, hst]
    rfl
  · simp [reportEntry, presentDateSet, List.card_toFinset]
  · intro d
    simp only [presentDateSet, List.mem_toFinset, List.mem_map,
      recordsInRange, List.mem_filter, Bool.and_eq_true, beq_iff_eq,
      decide_eq_true_eq]
    constructor
    · rintro ⟨r, ⟨hr, h1, h2, h3⟩, h4⟩
      exact ⟨r, hr, h1, h2, h3, h4⟩
    · rintro ⟨r, hr, h1, h2, h3, h4⟩
      exact ⟨r, ⟨hr, h1, h2, h3⟩, h4⟩

/-- Witness for C5: one student with rows on dates 5 (twice) and 9, range
[4, 6]; the entry reports exactly one distinct present date. -/
theorem c5_present_count_distinct_dates_witness :
    ∃ entry,
      (get_reports_data
        ⟨[⟨1, "S1", "Ada"⟩],
          [],
          [⟨1, 5, 0, "Present"⟩, ⟨1, 5, 1, "Present"⟩, ⟨1, 9, 2, "Present"⟩]⟩
        4 6)[0]? = some entry ∧
      entry.present_count =
        (presentDateSet
          [⟨1, 5, 0, "Present"⟩, ⟨1, 5, 1, "Present"⟩, ⟨1, 9, 2, "Present"⟩]
          1 4 6).card ∧
      ∀ d, d ∈ presentDateSet
          [⟨1, 5, 0, "Present"⟩, ⟨1, 5, 1, "Present"⟩, ⟨1, 9, 2, "Present"⟩]
          1 4 6 ↔
        ∃ r ∈ ([⟨1, 5, 0, "Present"⟩, ⟨1, 5, 1, "Present"⟩,
            ⟨1, 9, 2, "Present"⟩] : List Attendance),
          r.student_id = 1 ∧ 4 ≤ r.date ∧ r.date ≤ 6 ∧ r.date = d :=
  c5_present_count_distinct_dates
    ⟨[⟨1, "S1", "Ada"⟩],
      [],
      [⟨1, 5, 0, "Present"⟩, ⟨1, 5, 1, "Present"⟩, ⟨1, 9, 2, "Present"⟩]⟩
    4 6 0 ⟨1, "S1", "Ada"⟩ rfl

theorem joinRange_length (students : List Student) (att : List Attendance)
    (s e : Nat)
    (hFK : ∀ a ∈ att, s ≤ a.date → a.date ≤ e →
      (students.find? (fun st => st.id == a.student_id)).isSome) :
    (att.filterMap (fun a =>
      if s ≤ a.date ∧ a.date ≤ e then
        (students.find? (fun st => st.id == a.student_id)).map
          (fun st => (a, st))
      else none)).length =
      (att.filter (fun a =>
        decide (s ≤ a.date) && decide (a.date ≤ e))).length := by
  induction att with
  | nil => simp
  | cons a t ih =>
    have ih' := ih (fun x hx => hFK x (List.mem_cons_of_mem _ hx))
    by_cases hc : s ≤ a.date ∧ a.date ≤ e
    · obtain ⟨st', hst'⟩ := Option.isSome_iff_exists.mp
        (hFK a (List.mem_cons_self a t) hc.1 hc.2)
      simp [List.filterMap_cons, List.filter_cons, hc, hc.1, hc.2, hst', ih']
    · simp [List.filterMap_cons, List.filter_cons, hc, ih']

/-- C4: the CSV produced by GET /api/reports/export consists of the header
row plus exactly one data row per Attendance row whose date lies within the
requested range (assuming every in-range Attendance row references an
existing student, which the join requires). -/
theorem c4_csv_row_count (db : Db) (s e : Nat)
    (hFK : ∀ a ∈ db.attendance, s ≤ a.date → a.date ≤ e →
      (db.students.find? (fun st => st.id == a.student_id)).isSome) :
    (export_csv db s e).length =
      (db.attendance.filter (fun a =>
        decide (s ≤ a.date) && decide (a.date ≤ e))).length + 1 := by
  unfold export_csv
  rw [List.length_cons, List.length_map]
  unfold exportRecords
  rw [List.length_mergeSort]
  rw [joinRange_length db.students db.attendance s e hFK]

/-- Witness for C4: two rows, one in range; the CSV has 1 + 1 lines. -/
theorem c4_csv_row_count_witness :
    (export_csv
      ⟨[⟨1, "S1", "Ada"⟩], [], [⟨1, 5, 0, "P"⟩, ⟨1, 9, 1, "P"⟩]⟩ 4 6).length =
      (([⟨1, 5, 0, "P"⟩, ⟨1, 9, 1, "P"⟩] : List Attendance).filter (fun a =>
        decide (4 ≤ a.date) && decide (a.date ≤ 6))).length + 1 :=
  c4_csv_row_count ⟨[⟨1, "S1", "Ada"⟩], [], [⟨1, 5, 0, "P"⟩, ⟨1, 9, 1, "P"⟩]⟩
    4 6 (by decide)

end AttendanceApp
